import Mathlib

/-!
Shallow embedding of the kv-store version-set subsystem of the repository
(`kv/version/version_set.go`) together with the tag-cardinality core of the
in-memory database (`memdb`).  Stateful Go code is modelled by explicit state
passing: the `storeVersionSet` receiver becomes a `StoreVersionSet` value and
the filesystem plus the outcome of fallible I/O primitives becomes a `World`
value threaded through every operation.  Fallible Go calls return
`Except GoError` paired with the updated state.
-/

/-- Association-list lookup, modelling a Go map read (`m[k]` with ok flag). -/
def lookupA {κ α : Type} [DecidableEq κ] : List (κ × α) → κ → Option α
  | [], _ => none
  | (k2, v) :: rest, k => if k = k2 then some v else lookupA rest k

/-- Association-list update, modelling a Go map write (`m[k] = v`). -/
def setA {κ α : Type} [DecidableEq κ] : List (κ × α) → κ → α → List (κ × α)
  | [], k, v => [(k, v)]
  | (k2, v2) :: rest, k, v =>
    if k = k2 then (k, v) :: rest else (k2, v2) :: setA rest k v

/-- Association-list removal, modelling deletion of a file-system entry. -/
def removeA {κ α : Type} [DecidableEq κ] : List (κ × α) → κ → List (κ × α)
  | [], _ => []
  | (k2, v2) :: rest, k =>
    if k = k2 then removeA rest k else (k2, v2) :: removeA rest k

/-- Modelled from the spec: file metadata owned by a version
(level entry: file number, min/max key, size); the Go `FileMeta` type is not
under `src/`. -/
structure FileMeta where
  fileNumber : Int
  minKey : Nat
  maxKey : Nat
  size : Int
deriving Repr, DecidableEq

/-- Modelled from the spec: the three edit kinds of an edit log,
`NewFile(level, meta)`, `DeleteFile(level, num)` and `NextFileNumber(n)`;
the Go edit types are not under `src/`. -/
inductive Edit where
  | newFile (level : Nat) (file : FileMeta)
  | deleteFile (level : Nat) (fileNumber : Int)
  | nextFileNumber (n : Int)
deriving Repr, DecidableEq

/-- Modelled from the spec: an `EditLog` carries a familyID (or the reserved
`StoreFamilyID`) and an ordered list of edits; the Go `EditLog` type is not
under `src/`. -/
structure EditLog where
  familyID : Int
  logs : List Edit
deriving Repr, DecidableEq

/-- Modelled from the spec: `StoreFamilyID` is the reserved familyID (−1) of
store-level edit logs. -/
def StoreFamilyID : Int := -1

/-- Modelled from the spec: `EditLog.Add` appends one edit to the log. -/
def EditLog.Add (e : EditLog) (edit : Edit) : EditLog :=
  { e with logs := e.logs ++ [edit] }

/-- Modelled from the spec: a version is a per-family snapshot, a vector of
levels, each a list of file metadata; the Go `Version` type is not under
`src/`. -/
structure Version where
  levels : List (List FileMeta)
deriving Repr, DecidableEq

/-- Modelled from the spec: the sort key of a level file list, the file number
at level 0 and the min key at level ≥ 1. -/
def fileKey (level : Nat) (f : FileMeta) : Int :=
  if level = 0 then f.fileNumber else Int.ofNat f.minKey

/-- Modelled from the spec: insertion into a level preserving sort order. -/
def insertSorted (level : Nat) (f : FileMeta) : List FileMeta → List FileMeta
  | [] => [f]
  | g :: gs =>
    if fileKey level f ≤ fileKey level g then f :: g :: gs
    else g :: insertSorted level f gs

/-- Modelled from the spec: applying one edit to a version.  `NewFile` inserts
into its level preserving sort order, `DeleteFile` removes the file with that
number (missing is a no-op), and a `NextFileNumber` edit is a store-level edit
that leaves a version unchanged. -/
def Edit.applyToVersion : Edit → Version → Version
  | .newFile level f, v =>
    { levels := v.levels.set level (insertSorted level f (v.levels.getD level [])) }
  | .deleteFile level num, v =>
    { levels := v.levels.set level
        ((v.levels.getD level []).filter (fun f => f.fileNumber ≠ num)) }
  | .nextFileNumber _, v => v

/-- Modelled from the spec: `EditLog.apply` applies the edits of one log to a
version in insertion order. -/
def EditLog.apply (e : EditLog) (v : Version) : Version :=
  e.logs.foldl (fun acc edit => edit.applyToVersion acc) v

/-- Version whose levels are all empty, the initial version of a new family. -/
def emptyVersion (numOfLevels : Nat) : Version :=
  { levels := List.replicate numOfLevels [] }

/-- Modelled from the spec: a `FamilyVersion` owns the ordered version chain of
one family with the head first; the Go `FamilyVersion` type is not under
`src/`.  Snapshot reference counting is omitted: every claim reads the head
version only. -/
structure FamilyVersion where
  familyID : Int
  familyName : String
  versions : List Version
deriving Repr, DecidableEq

/-- Modelled from the spec: a new family version starts with one empty version
for the configured number of levels. -/
def newFamilyVersion (familyID : Int) (familyName : String) (numOfLevels : Nat) :
    FamilyVersion :=
  { familyID := familyID, familyName := familyName,
    versions := [emptyVersion numOfLevels] }

/-- Head version of the chain (`GetSnapshot().GetCurrent()`). -/
def FamilyVersion.head (fv : FamilyVersion) (numOfLevels : Nat) : Version :=
  fv.versions.headD (emptyVersion numOfLevels)

/-- Modelled from the spec: `appendVersion` installs a new head version. -/
def FamilyVersion.appendVersion (fv : FamilyVersion) (v : Version) : FamilyVersion :=
  { fv with versions := v :: fv.versions }

/-- Replace the head version in place, as recovery does when it applies an
edit log to the current head of a family. -/
def FamilyVersion.setHead (fv : FamilyVersion) (v : Version) : FamilyVersion :=
  match fv.versions with
  | [] => { fv with versions := [v] }
  | _ :: rest => { fv with versions := v :: rest }

/-- State of `storeVersionSet` (`version_set.go` lines 49-64): the two atomic
counters, the store path, both family maps, the version-id counter, the level
count and the manifest writer.  The open manifest writer is represented by the
path of the manifest file it appends to (`none` when the Go field is nil). -/
structure StoreVersionSet where
  manifestFileNumber : Int
  nextFileNumber : Int
  storePath : String
  familyVersions : List (String × FamilyVersion)
  familyIDs : List (Int × String)
  versionID : Int
  numOfLevels : Nat
  manifest : Option String
deriving Repr, DecidableEq

/-- `NewStoreVersionSet` (`version_set.go` lines 67-78): manifest file number
starts at 1 and next file number at 2. -/
def NewStoreVersionSet (storePath : String) (numOfLevels : Nat) : StoreVersionSet :=
  { manifestFileNumber := 1, nextFileNumber := 2, storePath := storePath,
    familyVersions := [], familyIDs := [], versionID := 0,
    numOfLevels := numOfLevels, manifest := none }

/-- Errors surfaced by the version set; Go wraps them as `fmt.Errorf` strings,
kept here as semantic variants. -/
inductive GoError where
  | unknownFamily (family : String)
  | unknownFamilyID (familyID : Int)
  | ioError (msg : String)
deriving Repr, DecidableEq

/-- Entry of the modelled filesystem: the CURRENT pointer file holds text and a
manifest file holds its framed edit-log records (marshalling is abstracted as
the identity, so a frame is an `EditLog` value). -/
inductive FsEntry where
  | text (content : String)
  | manifest (logs : List EditLog)
deriving Repr, DecidableEq

/-- Observable filesystem events, used to state ordering properties.  The Go
primitives emitting them: `bufioutil.NewBufioWriter` (openWriter),
`BufioWriter.Write` (writeRecord), `BufioWriter.Sync` (syncWriter),
`ioutil.WriteFile` (writeFile, which does not fsync), `os.Rename` (rename).
No code path of `version_set.go` emits `syncFile` (an explicit fsync of a
plain file): the constructor exists so that its absence can be stated. -/
inductive FsOp where
  | openWriter (path : String)
  | writeRecord (path : String)
  | syncWriter (path : String)
  | writeFile (path : String)
  | syncFile (path : String)
  | rename (src : String) (dst : String)
deriving Repr, DecidableEq

/-- World threaded through every stateful operation: the filesystem, the event
trace, and an oracle of outcomes for fallible primitives (each primitive
consumes one entry; an exhausted oracle means success). -/
structure World where
  files : List (String × FsEntry)
  trace : List FsOp
  fuel : List Bool
deriving Repr, DecidableEq

/-- Consume one outcome from the oracle. -/
def takeFuel (w : World) : Bool × World :=
  match w.fuel with
  | [] => (true, w)
  | b :: rest => (b, { w with fuel := rest })

/-- Record one filesystem event. -/
def emit (w : World) (op : FsOp) : World :=
  { w with trace := w.trace ++ [op] }

/-- `ioutil.WriteFile`: writes the full content of a file.  It does not fsync
the file, so no sync event is emitted. -/
def fsWriteFile (path : String) (e : FsEntry) (w : World) :
    Except GoError Unit × World :=
  let r := takeFuel w
  let w := emit r.2 (.writeFile path)
  if r.1 then (.ok (), { w with files := setA w.files path e })
  else (.error (.ioError "write file error"), w)

/-- `os.Rename`: atomically renames `src` onto `dst`. -/
def fsRename (src dst : String) (w : World) : Except GoError Unit × World :=
  let r := takeFuel w
  let w := emit r.2 (.rename src dst)
  if r.1 then
    match lookupA w.files src with
    | some e => (.ok (), { w with files := setA (removeA w.files src) dst e })
    | none => (.error (.ioError "rename source missing"), w)
  else (.error (.ioError "rename error"), w)

/-- `bufioutil.NewBufioWriter`: opens a buffered writer on `path`, creating
the file (an empty manifest) on success. -/
def newBufioWriter (path : String) (w : World) : Except GoError Unit × World :=
  let r := takeFuel w
  let w := emit r.2 (.openWriter path)
  if r.1 then (.ok (), { w with files := setA w.files path (.manifest []) })
  else (.error (.ioError "create writer error"), w)

/-- `EditLog.marshal`: protobuf encoding, abstracted as the identity on the
edit log; an encoding failure is driven by the outcome oracle
(`persistEditLogs` wraps it as an encode error, `version_set.go` line 378). -/
def marshalOp (e : EditLog) (w : World) : Except GoError EditLog × World :=
  let r := takeFuel w
  if r.1 then (.ok e, r.2)
  else (.error (.ioError "encode edit log error"), r.2)

/-- `BufioWriter.Write`: appends one marshalled record to the manifest file
(`version_set.go` line 380). -/
def writerWrite (path : String) (e : EditLog) (w : World) :
    Except GoError Unit × World :=
  let r := takeFuel w
  let w := emit r.2 (.writeRecord path)
  if r.1 then
    match lookupA w.files path with
    | some (.manifest logs) =>
      (.ok (), { w with files := setA w.files path (.manifest (logs ++ [e])) })
    | _ => (.error (.ioError "write edit log error"), w)
  else (.error (.ioError "write edit log error"), w)

/-- `BufioWriter.Sync` (`version_set.go` line 383). -/
def writerSync (path : String) (w : World) : Except GoError Unit × World :=
  let r := takeFuel w
  let w := emit r.2 (.syncWriter path)
  if r.1 then (.ok (), w)
  else (.error (.ioError "sync edit log error"), w)

/-- Modelled from the spec: the name of the CURRENT pointer file returned by
the Go helper `current()`, which is not under `src/`. -/
def currentFileName : String := "CURRENT"

/-- Modelled from the spec: the TMP suffix used for in-flight CURRENT
updates; the Go constant `TmpSuffix` is not under `src/`. -/
def TmpSuffix : String := "tmp"

/-- Modelled from the spec: `ManifestFileName(n)` is the name
`MANIFEST-NNNNNN`; zero padding is immaterial and omitted. -/
def ManifestFileName (n : Int) : String := "MANIFEST-" ++ toString n

/-- `getCurrentPath` (`version_set.go` lines 324-326). -/
def getCurrentPath (vs : StoreVersionSet) : String :=
  vs.storePath ++ "/" ++ currentFileName

/-- `getManifestFilePath` (`version_set.go` lines 329-331). -/
def getManifestFilePath (vs : StoreVersionSet) (manifestFileName : String) : String :=
  vs.storePath ++ "/" ++ manifestFileName

/-- `NextFileNumber` (`version_set.go` lines 105-108): fetch-add on the
counter, returning the pre-increment value. -/
def NextFileNumber (vs : StoreVersionSet) : Int × StoreVersionSet :=
  (vs.nextFileNumber, { vs with nextFileNumber := vs.nextFileNumber + 1 })

/-- `ManifestFileNumber` (`version_set.go` lines 111-113). -/
def ManifestFileNumber (vs : StoreVersionSet) : Int :=
  vs.manifestFileNumber

/-- `GetFamilyVersion` (`version_set.go` lines 165-173). -/
def GetFamilyVersion (vs : StoreVersionSet) (family : String) : Option FamilyVersion :=
  lookupA vs.familyVersions family

/-- `getFamilyVersion` by id (`version_set.go` lines 293-301): a missing name
or a missing family entry both yield the Go nil. -/
def getFamilyVersionByID (vs : StoreVersionSet) (familyID : Int) : Option FamilyVersion :=
  match lookupA vs.familyIDs familyID with
  | none => none
  | some name => lookupA vs.familyVersions name

/-- `CreateFamilyVersion` (`version_set.go` lines 150-162): an existing family
is returned unchanged, otherwise a new family version is registered under both
the name and the id. -/
def CreateFamilyVersion (vs : StoreVersionSet) (family : String) (familyID : Int) :
    FamilyVersion × StoreVersionSet :=
  match GetFamilyVersion vs family with
  | some fv => (fv, vs)
  | none =>
    let fv := newFamilyVersion familyID family vs.numOfLevels
    (fv, { vs with familyVersions := setA vs.familyVersions family fv,
                   familyIDs := setA vs.familyIDs familyID family })

/-- `setNextFileNumberWithoutLock` (`version_set.go` lines 249-252). -/
def setNextFileNumberWithoutLock (vs : StoreVersionSet) (newNextFileNumber : Int) :
    StoreVersionSet :=
  { vs with manifestFileNumber := newNextFileNumber,
            nextFileNumber := newNextFileNumber + 1 }

/-- `newVersionID` (`version_set.go` lines 304-307). -/
def newVersionID (vs : StoreVersionSet) : Int × StoreVersionSet :=
  (vs.versionID, { vs with versionID := vs.versionID + 1 })

/-- Modelled from the spec: store-level records apply to the version set, a
`NextFileNumber(n)` edit storing `n` via `setNextFileNumberWithoutLock`; the
Go `EditLog.applyVersionSet` is not under `src/`. -/
def EditLog.applyVersionSet (e : EditLog) (vs : StoreVersionSet) : StoreVersionSet :=
  e.logs.foldl
    (fun acc edit =>
      match edit with
      | .nextFileNumber n => setNextFileNumberWithoutLock acc n
      | _ => acc)
    vs

/-- `persistEditLogs` (`version_set.go` lines 374-388): marshal, write and
sync each edit log in order, stopping at the first failure. -/
def persistEditLogs (path : String) : List EditLog → World → Except GoError Unit × World
  | [], w => (.ok (), w)
  | e :: rest, w =>
    match marshalOp e w with
    | (.error err, w) => (.error err, w)
    | (.ok v, w) =>
      match writerWrite path v w with
      | (.error err, w) => (.error err, w)
      | (.ok _, w) =>
        match writerSync path w with
        | (.error err, w) => (.error err, w)
        | (.ok _, w) => persistEditLogs path rest w

/-- `CommitFamilyEditLog` (`version_set.go` lines 116-146): resolve the
family (unknown family is an error), append a `NextFileNumber` edit carrying
the current counter, persist the log, then clone the head version, apply the
log and install the clone as the new head. -/
def CommitFamilyEditLog (vs : StoreVersionSet) (family : String) (editLog : EditLog)
    (w : World) : Except GoError Unit × StoreVersionSet × World :=
  match GetFamilyVersion vs family with
  | none => (.error (.unknownFamily family), vs, w)
  | some fv =>
    let editLog := editLog.Add (.nextFileNumber vs.nextFileNumber)
    match persistEditLogs (vs.manifest.getD "") [editLog] w with
    | (.error err, w) => (.error err, vs, w)
    | (.ok _, w) =>
      let newVersion := editLog.apply (fv.head vs.numOfLevels)
      let fv2 := fv.appendVersion newVersion
      (.ok (), { vs with familyVersions := setA vs.familyVersions family fv2 }, w)

/-- `applyFamilyVersion` (`version_set.go` lines 235-246): resolve the family
by id (unknown id is an error) and apply the edit log to the current head
version in place. -/
def applyFamilyVersion (vs : StoreVersionSet) (familyID : Int) (editLog : EditLog) :
    Except GoError StoreVersionSet :=
  match getFamilyVersionByID vs familyID with
  | none => .error (.unknownFamilyID familyID)
  | some fv =>
    let head := fv.head vs.numOfLevels
    let fv2 := fv.setHead (editLog.apply head)
    .ok { vs with familyVersions := setA vs.familyVersions fv.familyName fv2 }

/-- `readManifestFileName` (`version_set.go` lines 255-262): read the live
manifest name from the CURRENT file. -/
def readManifestFileName (vs : StoreVersionSet) (w : World) :
    Except GoError String × World :=
  match lookupA w.files (getCurrentPath vs) with
  | some (.text s) => (.ok s, w)
  | _ => (.error (.ioError "write manifest file name error"), w)

/-- `bufioutil.NewBufioReader` plus the framed-record loop of `recover`: the
abstract reader yields the full record list of the manifest file. -/
def openManifestReader (path : String) (w : World) :
    Except GoError (List EditLog) × World :=
  match lookupA w.files path with
  | some (.manifest logs) => (.ok logs, w)
  | _ => (.error (.ioError "create journal reader error"), w)

/-- Record loop of `recover` (`version_set.go` lines 213-230): each edit log
is dispatched, store-level logs to the version set and all others to the
family with that id, stopping at the first failure. -/
def recoverLoop : StoreVersionSet → List EditLog → Except GoError Unit × StoreVersionSet
  | vs, [] => (.ok (), vs)
  | vs, e :: rest =>
    if e.familyID = StoreFamilyID then recoverLoop (e.applyVersionSet vs) rest
    else
      match applyFamilyVersion vs e.familyID e with
      | .error err => (.error err, vs)
      | .ok vs2 => recoverLoop vs2 rest

/-- `recover` (`version_set.go` lines 196-232): read CURRENT, open the named
manifest and replay its records in order. -/
def recoverVS (vs : StoreVersionSet) (w : World) :
    Except GoError Unit × StoreVersionSet × World :=
  match readManifestFileName vs w with
  | (.error err, w) => (.error err, vs, w)
  | (.ok name, w) =>
    match openManifestReader (getManifestFilePath vs name) w with
    | (.error err, w) => (.error err, vs, w)
    | (.ok logs, w) =>
      match recoverLoop vs logs with
      | (.error err, vs2) => (.error err, vs2, w)
      | (.ok _, vs2) => (.ok (), vs2, w)

/-- `createFamilySnapshot` (`version_set.go` lines 348-363): one `NewFile`
edit per file of every level of the current head version. -/
def createFamilySnapshot (familyID : Int) (fv : FamilyVersion) (numOfLevels : Nat) :
    EditLog :=
  { familyID := familyID,
    logs := (fv.head numOfLevels).levels.enum.flatMap
      (fun p => p.2.map (fun f => Edit.newFile p.1 f)) }

/-- `createStoreSnapshot` (`version_set.go` lines 366-371): a store-level log
carrying the current next file number. -/
def createStoreSnapshot (vs : StoreVersionSet) : EditLog :=
  { familyID := StoreFamilyID, logs := [.nextFileNumber vs.nextFileNumber] }

/-- `createSnapshot` (`version_set.go` lines 334-345): per-family snapshot
logs followed by the store-level log. -/
def createSnapshot (vs : StoreVersionSet) : List EditLog :=
  (vs.familyIDs.map
    (fun p => createFamilySnapshot p.1
      ((lookupA vs.familyVersions p.2).getD
        (newFamilyVersion p.1 p.2 vs.numOfLevels)) vs.numOfLevels))
    ++ [createStoreSnapshot vs]

/-- `setCurrent` (`version_set.go` lines 310-321): write the manifest name to
the tmp file, then rename the tmp file onto CURRENT.  No fsync occurs. -/
def setCurrent (vs : StoreVersionSet) (manifestFile : String) (w : World) :
    Except GoError Unit × World :=
  let cur := getCurrentPath vs
  let tmp := cur ++ "." ++ TmpSuffix
  match fsWriteFile tmp (.text manifestFile) w with
  | (.error err, w) => (.error err, w)
  | (.ok _, w) =>
    match fsRename tmp cur w with
    | (.error err, w) => (.error err, w)
    | (.ok _, w) => (.ok (), w)

/-- `initJournal` (`version_set.go` lines 268-290): when no manifest writer is
open, open a writer on the manifest named by the manifest file number, persist
the full snapshot, only then swap CURRENT, and only then install the writer. -/
def initJournal (vs : StoreVersionSet) (w : World) :
    Except GoError Unit × StoreVersionSet × World :=
  match vs.manifest with
  | some _ => (.ok (), vs, w)
  | none =>
    let manifestFileName := ManifestFileName vs.manifestFileNumber
    let manifestPath := getManifestFilePath vs manifestFileName
    match newBufioWriter manifestPath w with
    | (.error err, w) => (.error err, vs, w)
    | (.ok _, w) =>
      match persistEditLogs manifestPath (createSnapshot vs) w with
      | (.error err, w) => (.error err, vs, w)
      | (.ok _, w) =>
        match setCurrent vs manifestFileName w with
        | (.error err, w) => (.error err, vs, w)
        | (.ok _, w) => (.ok (), { vs with manifest := some manifestPath }, w)

/-- `Recover` (`version_set.go` lines 177-193): initialize when the CURRENT
file is absent, otherwise replay the journal and then init the writer. -/
def Recover (vs : StoreVersionSet) (w : World) :
    Except GoError Unit × StoreVersionSet × World :=
  if (lookupA w.files (getCurrentPath vs)).isSome then
    match recoverVS vs w with
    | (.error err, vs2, w) => (.error err, vs2, w)
    | (.ok _, vs2, w) => initJournal vs2 w
  else initJournal vs w

/-- Spec-side replay, following the spec text: the state after recovery equals
the replay of every persisted edit log in order, store-level records applying
to the version set and all others to the head of the family with that id. -/
def replayAll : StoreVersionSet → List EditLog → Except GoError StoreVersionSet
  | vs, [] => .ok vs
  | vs, e :: rest =>
    if e.familyID = StoreFamilyID then replayAll (e.applyVersionSet vs) rest
    else
      match applyFamilyVersion vs e.familyID e with
      | .error err => .error err
      | .ok vs2 => replayAll vs2 rest

/-- Trace segment left by a successful `persistEditLogs` call: one write and
one sync per edit log, in order. -/
def persistTrace (path : String) (logs : List EditLog) : List FsOp :=
  logs.flatMap (fun _ => [FsOp.writeRecord path, FsOp.syncWriter path])

/-- Driver iterating `NextFileNumber`, collecting the returned file numbers. -/
def nextFileNumbers : StoreVersionSet → Nat → List Int × StoreVersionSet
  | vs, 0 => ([], vs)
  | vs, n + 1 =>
    let r := NextFileNumber vs
    let rest := nextFileNumbers r.2 n
    (r.1 :: rest.1, rest.2)

/-- Values carried by the `NextFileNumber` edits of one edit log, in order. -/
def nfnValues (e : EditLog) : List Int :=
  e.logs.filterMap
    (fun ed => match ed with | .nextFileNumber n => some n | _ => none)

/-- Values carried by `NextFileNumber` edits of store-level logs, in replay
order. -/
def storeNextFileNumbers : List EditLog → List Int
  | [] => []
  | e :: rest =>
    if e.familyID = StoreFamilyID then nfnValues e ++ storeNextFileNumbers rest
    else storeNextFileNumbers rest

/-- Value of the last store-level `NextFileNumber` edit replayed, if any. -/
def lastStoreNextFileNumber (logs : List EditLog) : Option Int :=
  (storeNextFileNumbers logs).getLast?

/-- Every file number recorded by `NewFile` or `DeleteFile` edits of a list of
edit logs. -/
def recordedFileNumbers (logs : List EditLog) : List Int :=
  logs.flatMap (fun e => e.logs.filterMap
    (fun ed => match ed with
      | .newFile _ f => some f.fileNumber
      | .deleteFile _ num => some num
      | .nextFileNumber _ => none))

/-- Whether an `Except` result is a success. -/
def exceptIsOk {α : Type} (r : Except GoError α) : Bool :=
  match r with
  | .ok _ => true
  | .error _ => false

/-- Modelled from the spec: a versioned ts-map of the memory database, one
tag-string → tsStore map with a version id; the memdb implementation is not
under `src/` (only its tests are).  Field stores are irrelevant to the
cardinality invariant and a ts-store is represented by its tag-set key. -/
structure VersionedTSMap where
  version : Int
  tags : List String
deriving Repr, DecidableEq

/-- Modelled from the spec: a metric store owns one mutable versioned map,
an ordered list of frozen immutable maps and its per-metric tag limit. -/
structure MetricStore where
  mutable : VersionedTSMap
  immutable : List VersionedTSMap
  maxTagsLimit : Nat
deriving Repr, DecidableEq

/-- Modelled from the spec: error of a write that would breach the tag
limit. -/
inductive MemDbError where
  | tooManyTags
deriving Repr, DecidableEq

/-- Total tag-set count of a metric, summed across the mutable and immutable
versioned maps. -/
def MetricStore.tagCount (m : MetricStore) : Nat :=
  m.mutable.tags.length + (m.immutable.map (fun vm => vm.tags.length)).sum

/-- Modelled from the spec: a write resolves the ts-store of its tag-set in
the mutable map, creating it if absent; before creation, a tag count at or
above the limit fails with `TooManyTags` and nothing is written. -/
def MetricStore.write (m : MetricStore) (tagSet : String) :
    Except MemDbError MetricStore :=
  if tagSet ∈ m.mutable.tags then .ok m
  else if m.maxTagsLimit ≤ m.tagCount then .error .tooManyTags
  else .ok { m with mutable := { m.mutable with tags := tagSet :: m.mutable.tags } }

/-- Modelled from the spec: freeze moves the mutable map to the tail of the
immutable list, replacing it with a fresh empty map. -/
def MetricStore.freeze (m : MetricStore) (newVersion : Int) : MetricStore :=
  { m with mutable := { version := newVersion, tags := [] },
           immutable := m.immutable ++ [m.mutable] }

/-- Operations a metric store undergoes in the write path. -/
inductive MOp where
  | write (tagSet : String)
  | freeze (newVersion : Int)
deriving Repr, DecidableEq

/-- One step of the write path; a failing write changes nothing. -/
def MetricStore.step (m : MetricStore) : MOp → MetricStore
  | .write t =>
    match m.write t with
    | .ok m2 => m2
    | .error _ => m
  | .freeze v => m.freeze v

/-- Runs a sequence of write-path operations. -/
def MetricStore.run (m : MetricStore) (ops : List MOp) : MetricStore :=
  ops.foldl MetricStore.step m

/-- Store with one registered family, used as a concrete input. -/
def vsEx : StoreVersionSet :=
  (CreateFamilyVersion (NewStoreVersionSet "s" 2) "f" 1).2

/-- Store with one registered family and an open manifest writer. -/
def vsOpen : StoreVersionSet :=
  { vsEx with manifest := some "s/MANIFEST-1" }

/-- World holding the open manifest file, every primitive succeeding. -/
def wOpen : World :=
  { files := [("s/MANIFEST-1", .manifest [])], trace := [], fuel := [] }

/-- World holding the open manifest file whose next primitive fails. -/
def wFail : World :=
  { files := [("s/MANIFEST-1", .manifest [])], trace := [], fuel := [false] }

/-- File metadata used by concrete inputs. -/
def fmEx (n : Int) : FileMeta :=
  { fileNumber := n, minKey := 0, maxKey := 10, size := 100 }

/-- Journal whose family log records file number 100 while the store-level
log carries next file number 5. -/
def logs9 : List EditLog :=
  [{ familyID := 1, logs := [.newFile 0 (fmEx 100)] },
   { familyID := StoreFamilyID, logs := [.nextFileNumber 5] }]

/-- World whose CURRENT names a manifest holding `logs9`. -/
def w9 : World :=
  { files := [("s/CURRENT", .text "MANIFEST-1"), ("s/MANIFEST-1", .manifest logs9)],
    trace := [], fuel := [] }

/-- Journal whose recorded file numbers stay below the store-level next file
number. -/
def logsW : List EditLog :=
  [{ familyID := 1, logs := [.newFile 0 (fmEx 3)] },
   { familyID := StoreFamilyID, logs := [.nextFileNumber 5] }]

/-- World whose CURRENT names a manifest holding `logsW`. -/
def wW : World :=
  { files := [("s/CURRENT", .text "MANIFEST-1"), ("s/MANIFEST-1", .manifest logsW)],
    trace := [], fuel := [] }

/-- Replay result of `logsW` over the example store. -/
def vsW2 : StoreVersionSet :=
  match replayAll vsEx logsW with
  | .ok v => v
  | .error _ => vsEx

/-- Journal containing a log of an unregistered family id. -/
def logsBad : List EditLog :=
  [{ familyID := StoreFamilyID, logs := [.nextFileNumber 5] },
   { familyID := 42, logs := [.newFile 0 (fmEx 3)] }]

/-- World whose CURRENT names a manifest holding `logsBad`. -/
def wBad : World :=
  { files := [("s/CURRENT", .text "MANIFEST-1"), ("s/MANIFEST-1", .manifest logsBad)],
    trace := [], fuel := [] }

/-- World with no files at all, every primitive succeeding. -/
def wEmpty : World :=
  { files := [], trace := [], fuel := [] }

/-- Edit log used as the commit payload of concrete inputs. -/
def eEx : EditLog :=
  { familyID := 1, logs := [.newFile 0 (fmEx 3)] }

/-- Metric store with tag limit 2 and no tags yet. -/
def mEx : MetricStore :=
  { mutable := { version := 0, tags := [] }, immutable := [], maxTagsLimit := 2 }

/-- Family version registered in the example store. -/
def fvEx : FamilyVersion := newFamilyVersion 1 "f" 2

/-- Expected world after the failing commit of the concrete input. -/
def wFailAfter : World :=
  { files := [("s/MANIFEST-1", .manifest [])], trace := [], fuel := [] }

/-- Empty world whose first primitive fails. -/
def wFailOpen : World :=
  { files := [], trace := [], fuel := [false] }

/-- Metric store after two tag writes and a freeze, holding 2 of 2 tags. -/
def mFull : MetricStore :=
  MetricStore.run mEx [.write "a", .freeze 1, .write "b"]

/-- Updating a key and reading it back yields the written value. -/
theorem lookupA_setA_self {κ α : Type} [DecidableEq κ] (l : List (κ × α)) (k : κ) (v : α) :
    lookupA (setA l k v) k = some v := by
  induction l with
  | nil => simp [setA, lookupA]
  | cons p rest ih =>
    obtain ⟨k2, v2⟩ := p
    by_cases hk : k = k2
    · simp [setA, lookupA, hk]
    · simp [setA, lookupA, hk, ih]

/-- Updating a key with the value it already holds is the identity. -/
theorem setA_eq_of_lookupA {κ α : Type} [DecidableEq κ] (l : List (κ × α)) (k : κ) (v : α)
    (h : lookupA l k = some v) : setA l k v = l := by
  induction l with
  | nil => simp [lookupA] at h
  | cons p rest ih =>
    obtain ⟨k2, v2⟩ := p
    by_cases hk : k = k2
    · simp [lookupA, hk] at h
      simp [setA, hk, h]
    · simp [lookupA, hk] at h
      simp [setA, hk, ih h]

/-- Two successive updates of the same key collapse to the second. -/
theorem setA_setA {κ α : Type} [DecidableEq κ] (l : List (κ × α)) (k : κ) (v v2 : α) :
    setA (setA l k v) k v2 = setA l k v2 := by
  induction l with
  | nil => simp [setA]
  | cons p rest ih =>
    obtain ⟨k2, v3⟩ := p
    by_cases hk : k = k2
    · simp [setA, hk]
    · simp [setA, hk, ih]

/-- An empty oracle makes every primitive succeed. -/
theorem takeFuel_nil (w : World) (h : w.fuel = []) : takeFuel w = (true, w) := by
  simp [takeFuel, h]

/-- Successful `ioutil.WriteFile` under an empty oracle. -/
theorem fsWriteFile_ok (path : String) (e : FsEntry) (w : World) (h : w.fuel = []) :
    fsWriteFile path e w =
      (.ok (), ⟨setA w.files path e, w.trace ++ [.writeFile path], []⟩) := by
  simp [fsWriteFile, takeFuel_nil w h, emit, h]

/-- Successful `os.Rename` under an empty oracle. -/
theorem fsRename_ok (src dst : String) (w : World) (ent : FsEntry) (h : w.fuel = [])
    (hsrc : lookupA w.files src = some ent) :
    fsRename src dst w =
      (.ok (), ⟨setA (removeA w.files src) dst ent, w.trace ++ [.rename src dst], []⟩) := by
  simp [fsRename, takeFuel_nil w h, emit, hsrc, h]

/-- Successful `bufioutil.NewBufioWriter` under an empty oracle. -/
theorem newBufioWriter_ok (path : String) (w : World) (h : w.fuel = []) :
    newBufioWriter path w =
      (.ok (), ⟨setA w.files path (.manifest []), w.trace ++ [.openWriter path], []⟩) := by
  simp [newBufioWriter, takeFuel_nil w h, emit, h]

/-- Successful `persistEditLogs` under an empty oracle: all logs are appended
to the manifest file and the trace gains one write and one sync per log. -/
theorem persistEditLogs_ok (path : String) (logs : List EditLog) (w : World)
    (m0 : List EditLog) (hfuel : w.fuel = [])
    (hfile : lookupA w.files path = some (.manifest m0)) :
    persistEditLogs path logs w =
      (.ok (), ⟨setA w.files path (.manifest (m0 ++ logs)),
                w.trace ++ persistTrace path logs, []⟩) := by
  induction logs generalizing w m0 with
  | nil =>
    obtain ⟨fs, tr, fl⟩ := w
    simp only [World.mk.injEq] at hfuel
    subst hfuel
    simp only [persistEditLogs, persistTrace, List.flatMap_nil, List.append_nil]
    simp only at hfile
    rw [setA_eq_of_lookupA _ _ _ hfile]
  | cons e rest ih =>
    obtain ⟨fs, tr, fl⟩ := w
    simp only at hfuel hfile
    subst hfuel
    rw [persistEditLogs]
    simp [marshalOp, takeFuel, writerWrite, emit, writerSync, hfile]
    rw [ih _ (m0 ++ [e]) rfl (by simp [lookupA_setA_self])]
    simp [persistTrace, setA_setA, List.append_assoc]

/-- Successful `setCurrent` under an empty oracle: the manifest name goes to
the tmp file, the tmp file is renamed onto CURRENT, and no fsync happens. -/
theorem setCurrent_ok (vs : StoreVersionSet) (name : String) (w : World)
    (hfuel : w.fuel = []) :
    setCurrent vs name w =
      (.ok (),
       ⟨setA (removeA (setA w.files (getCurrentPath vs ++ "." ++ TmpSuffix) (.text name))
          (getCurrentPath vs ++ "." ++ TmpSuffix)) (getCurrentPath vs) (.text name),
        w.trace ++ [.writeFile (getCurrentPath vs ++ "." ++ TmpSuffix),
                    .rename (getCurrentPath vs ++ "." ++ TmpSuffix) (getCurrentPath vs)],
        []⟩) := by
  obtain ⟨fs, tr, fl⟩ := w
  simp only at hfuel
  subst hfuel
  simp [setCurrent, fsWriteFile, fsRename, takeFuel, emit, lookupA_setA_self,
    List.append_assoc]

/-- Successful `initJournal` under an empty oracle when no writer is open:
the snapshot is written and synced to the manifest named by the manifest file
number, then CURRENT is swapped, then the writer is installed. -/
theorem initJournal_ok (vs : StoreVersionSet) (w : World)
    (hman : vs.manifest = none) (hfuel : w.fuel = []) :
    initJournal vs w =
      (.ok (),
       { vs with manifest :=
           (some (getManifestFilePath vs (ManifestFileName vs.manifestFileNumber))) },
       ⟨setA (removeA (setA
          (setA w.files (getManifestFilePath vs (ManifestFileName vs.manifestFileNumber))
            (.manifest (createSnapshot vs)))
          (getCurrentPath vs ++ "." ++ TmpSuffix)
          (.text (ManifestFileName vs.manifestFileNumber)))
          (getCurrentPath vs ++ "." ++ TmpSuffix))
          (getCurrentPath vs)
          (.text (ManifestFileName vs.manifestFileNumber)),
        w.trace
          ++ [FsOp.openWriter (getManifestFilePath vs (ManifestFileName vs.manifestFileNumber))]
          ++ persistTrace (getManifestFilePath vs (ManifestFileName vs.manifestFileNumber))
               (createSnapshot vs)
          ++ [FsOp.writeFile (getCurrentPath vs ++ "." ++ TmpSuffix),
              FsOp.rename (getCurrentPath vs ++ "." ++ TmpSuffix) (getCurrentPath vs)],
        []⟩) := by
  rw [initJournal, hman]
  dsimp only
  rw [newBufioWriter_ok _ _ hfuel]
  dsimp only
  rw [persistEditLogs_ok _ _ _ [] rfl (by simp [lookupA_setA_self])]
  dsimp only
  rw [setCurrent_ok _ _ _ rfl]
  simp [setA_setA, List.append_assoc]

/-- C1: for a registered family, `CommitFamilyEditLog` appends exactly one
`NextFileNumber` edit carrying the current next file number to the edit log,
persists and syncs the marshalled log to the manifest writer, and installs as
the new head a clone of the previous head with the edit log applied; for an
unregistered family it returns an unknown-family error without writing to the
manifest or changing any version state. -/
theorem commitFamilyEditLog_spec (vs : StoreVersionSet) (family : String) (e : EditLog)
    (w : World) (path : String) (m0 : List EditLog)
    (hfuel : w.fuel = []) (hpath : vs.manifest = some path)
    (hwriter : lookupA w.files path = some (.manifest m0)) :
    (GetFamilyVersion vs family = none →
      CommitFamilyEditLog vs family e w = (.error (.unknownFamily family), vs, w)) ∧
    (∀ fv, GetFamilyVersion vs family = some fv →
      CommitFamilyEditLog vs family e w =
        (.ok (),
         { vs with familyVersions :=
             (setA vs.familyVersions family
               (fv.appendVersion
                 ((e.Add (.nextFileNumber vs.nextFileNumber)).apply
                   (fv.head vs.numOfLevels)))) },
         ⟨setA w.files path
            (.manifest (m0 ++ [e.Add (.nextFileNumber vs.nextFileNumber)])),
          w.trace ++ [.writeRecord path, .syncWriter path], []⟩)) := by
  constructor
  · intro h
    rw [CommitFamilyEditLog, h]
  · intro fv h
    rw [CommitFamilyEditLog, h]
    dsimp only
    rw [hpath]
    dsimp only [Option.getD]
    rw [persistEditLogs_ok _ _ _ m0 hfuel hwriter]
    simp [persistTrace]

/-- Witness instantiating C1 at a concrete store with family f registered:
both the committed branch and the unknown-family branch. -/
theorem commitFamilyEditLog_spec_witness :
    CommitFamilyEditLog vsOpen "f" eEx wOpen =
      (.ok (),
       { vsOpen with familyVersions :=
           (setA vsOpen.familyVersions "f"
             (fvEx.appendVersion
               ((eEx.Add (.nextFileNumber vsOpen.nextFileNumber)).apply
                 (fvEx.head vsOpen.numOfLevels)))) },
       ⟨setA wOpen.files "s/MANIFEST-1"
          (.manifest ([] ++ [eEx.Add (.nextFileNumber vsOpen.nextFileNumber)])),
        wOpen.trace ++ [.writeRecord "s/MANIFEST-1", .syncWriter "s/MANIFEST-1"], []⟩) ∧
    CommitFamilyEditLog vsOpen "g" eEx wOpen =
      (.error (.unknownFamily "g"), vsOpen, wOpen) :=
  ⟨(commitFamilyEditLog_spec vsOpen "f" eEx wOpen "s/MANIFEST-1" [] rfl rfl
      (by decide)).2 fvEx (by decide),
   (commitFamilyEditLog_spec vsOpen "g" eEx wOpen "s/MANIFEST-1" [] rfl rfl
      (by decide)).1 (by decide)⟩

/-- C3: when persisting the edit log fails (marshal, write or sync), the
commit returns that error and the family version chains are exactly what they
were before the call: no in-memory version state is modified. -/
theorem commit_persist_error_keeps_state (vs : StoreVersionSet) (family : String)
    (e : EditLog) (w w2 : World) (fv : FamilyVersion) (err : GoError)
    (hfv : GetFamilyVersion vs family = some fv)
    (hpersist : persistEditLogs (vs.manifest.getD "")
        [e.Add (.nextFileNumber vs.nextFileNumber)] w = (.error err, w2)) :
    CommitFamilyEditLog vs family e w = (.error err, vs, w2) := by
  rw [CommitFamilyEditLog, hfv]
  dsimp only
  rw [hpersist]

/-- Witness instantiating C3 at a concrete store whose next primitive fails:
the commit surfaces the encode error and keeps the store unchanged. -/
theorem commit_persist_error_keeps_state_witness :
    CommitFamilyEditLog vsOpen "f" eEx wFail =
      (.error (.ioError "encode edit log error"), vsOpen, wFailAfter) :=
  commit_persist_error_keeps_state vsOpen "f" eEx wFail wFailAfter fvEx
    (.ioError "encode edit log error") (by decide) rfl

/-- C5 counterexample: a successful CURRENT update whose trace is exactly a
tmp-file write followed by the rename, with no fsync event of any kind, so the
claim that `setCurrent` fsyncs the temporary file before renaming is false. -/
theorem setCurrent_no_fsync_counterexample :
    (setCurrent vsEx "MANIFEST-1" wEmpty).1 = .ok () ∧
    (setCurrent vsEx "MANIFEST-1" wEmpty).2.trace =
      [FsOp.writeFile "s/CURRENT.tmp", FsOp.rename "s/CURRENT.tmp" "s/CURRENT"] ∧
    ((setCurrent vsEx "MANIFEST-1" wEmpty).2.trace.all
      (fun op => match op with
        | .syncFile _ => false
        | .syncWriter _ => false
        | _ => true)) = true :=
  ⟨rfl, rfl, rfl⟩

/-- C5 as amended: every update of the CURRENT file writes the new manifest
name to a temporary file and then renames the temporary file onto CURRENT (no
separate fsync of the temporary file occurs); afterwards CURRENT holds exactly
the new manifest name. -/
theorem setCurrent_write_tmp_rename (vs : StoreVersionSet) (name : String)
    (w : World) (hfuel : w.fuel = []) :
    setCurrent vs name w =
      (.ok (),
       ⟨setA (removeA (setA w.files (getCurrentPath vs ++ "." ++ TmpSuffix) (.text name))
          (getCurrentPath vs ++ "." ++ TmpSuffix)) (getCurrentPath vs) (.text name),
        w.trace ++ [.writeFile (getCurrentPath vs ++ "." ++ TmpSuffix),
                    .rename (getCurrentPath vs ++ "." ++ TmpSuffix) (getCurrentPath vs)],
        []⟩) ∧
    lookupA (setCurrent vs name w).2.files (getCurrentPath vs) = some (.text name) := by
  refine ⟨setCurrent_ok vs name w hfuel, ?_⟩
  rw [setCurrent_ok vs name w hfuel]
  exact lookupA_setA_self _ _ _

/-- Witness instantiating the amended C5 at a concrete store. -/
theorem setCurrent_write_tmp_rename_witness :
    setCurrent vsEx "MANIFEST-1" wEmpty =
      (.ok (),
       ⟨setA (removeA (setA wEmpty.files "s/CURRENT.tmp" (.text "MANIFEST-1"))
          "s/CURRENT.tmp") "s/CURRENT" (.text "MANIFEST-1"),
        wEmpty.trace ++ [.writeFile "s/CURRENT.tmp", .rename "s/CURRENT.tmp" "s/CURRENT"],
        []⟩) ∧
    lookupA (setCurrent vsEx "MANIFEST-1" wEmpty).2.files "s/CURRENT" =
      some (.text "MANIFEST-1") :=
  setCurrent_write_tmp_rename vsEx "MANIFEST-1" wEmpty rfl

/-- The i-th value returned by repeated `NextFileNumber` calls is the initial
counter plus i. -/
theorem nextFileNumbers_get (vs : StoreVersionSet) (n i : Nat) (h : i < n) :
    (nextFileNumbers vs n).1[i]? = some (vs.nextFileNumber + i) := by
  induction n generalizing vs i with
  | zero => omega
  | succ n ih =>
    cases i with
    | zero => simp [nextFileNumbers, NextFileNumber]
    | succ j =>
      have hj : j < n := by omega
      simp only [nextFileNumbers, NextFileNumber, List.getElem?_cons_succ]
      rw [ih _ j hj]
      simp only [Option.some.injEq]
      push_cast
      ring

/-- C6: `NextFileNumber` increments the counter and returns the pre-increment
value; over any sequence of calls the returned file numbers are exactly
initial + i, hence pairwise distinct and strictly increasing. -/
theorem nextFileNumber_strictly_increasing (vs : StoreVersionSet) (n i j : Nat)
    (hij : i < j) (hjn : j < n) :
    (NextFileNumber vs).1 = vs.nextFileNumber ∧
    (NextFileNumber vs).2.nextFileNumber = vs.nextFileNumber + 1 ∧
    (nextFileNumbers vs n).1[i]? = some (vs.nextFileNumber + i) ∧
    (nextFileNumbers vs n).1[j]? = some (vs.nextFileNumber + j) ∧
    vs.nextFileNumber + (i : Int) < vs.nextFileNumber + (j : Int) := by
  refine ⟨rfl, rfl, nextFileNumbers_get vs n i (by omega),
    nextFileNumbers_get vs n j hjn, ?_⟩
  have : (i : Int) < (j : Int) := by exact_mod_cast hij
  omega

/-- Witness instantiating C6 at three calls on the example store. -/
theorem nextFileNumber_strictly_increasing_witness :
    (NextFileNumber vsEx).1 = vsEx.nextFileNumber ∧
    (NextFileNumber vsEx).2.nextFileNumber = vsEx.nextFileNumber + 1 ∧
    (nextFileNumbers vsEx 3).1[0]? = some (vsEx.nextFileNumber + 0) ∧
    (nextFileNumbers vsEx 3).1[2]? = some (vsEx.nextFileNumber + 2) ∧
    vsEx.nextFileNumber + (0 : Int) < vsEx.nextFileNumber + (2 : Int) :=
  nextFileNumber_strictly_increasing vsEx 3 0 2 (by omega) (by omega)

/-- C7: `CreateFamilyVersion` is idempotent: an existing family is returned
with both maps unchanged; a new family is registered under both the name and
the id. -/
theorem createFamilyVersion_idempotent (vs : StoreVersionSet) (family : String)
    (familyID : Int) :
    (∀ fv, GetFamilyVersion vs family = some fv →
      CreateFamilyVersion vs family familyID = (fv, vs)) ∧
    (GetFamilyVersion vs family = none →
      CreateFamilyVersion vs family familyID =
        (newFamilyVersion familyID family vs.numOfLevels,
         { vs with
            familyVersions :=
              setA vs.familyVersions family (newFamilyVersion familyID family vs.numOfLevels),
            familyIDs := setA vs.familyIDs familyID family })) := by
  constructor
  · intro fv h
    rw [CreateFamilyVersion, h]
  · intro h
    rw [CreateFamilyVersion, h]

/-- Witness instantiating C7: registering f twice returns the existing family
version and leaves the store unchanged; registering a fresh name extends both
maps. -/
theorem createFamilyVersion_idempotent_witness :
    CreateFamilyVersion vsEx "f" 1 = (fvEx, vsEx) ∧
    CreateFamilyVersion (NewStoreVersionSet "s" 2) "f" 1 =
      (newFamilyVersion 1 "f" 2,
       { NewStoreVersionSet "s" 2 with
          familyVersions := setA (NewStoreVersionSet "s" 2).familyVersions "f" (newFamilyVersion 1 "f" 2),
          familyIDs := setA (NewStoreVersionSet "s" 2).familyIDs 1 "f" }) :=
  ⟨(createFamilyVersion_idempotent vsEx "f" 1).1 fvEx (by decide),
   (createFamilyVersion_idempotent (NewStoreVersionSet "s" 2) "f" 1).2 (by decide)⟩

/-- C4: during initialization or rotation, the full snapshot (per-family
edit logs of `NewFile` edits for every file of every level of the head
version, then the store-level log carrying the current next file number) is
written and synced to the newly-named manifest before the CURRENT file is
swapped, as the resulting trace shows; the manifest writer field is set only
when every step succeeded, any failure leaving the version set unchanged. -/
theorem initJournal_snapshot_before_current_swap (vs : StoreVersionSet) (w : World)
    (hman : vs.manifest = none) (hfuel : w.fuel = []) :
    initJournal vs w =
      (.ok (),
       { vs with manifest :=
           (some (getManifestFilePath vs (ManifestFileName vs.manifestFileNumber))) },
       ⟨setA (removeA (setA
          (setA w.files (getManifestFilePath vs (ManifestFileName vs.manifestFileNumber))
            (.manifest (createSnapshot vs)))
          (getCurrentPath vs ++ "." ++ TmpSuffix)
          (.text (ManifestFileName vs.manifestFileNumber)))
          (getCurrentPath vs ++ "." ++ TmpSuffix))
          (getCurrentPath vs)
          (.text (ManifestFileName vs.manifestFileNumber)),
        w.trace
          ++ [FsOp.openWriter (getManifestFilePath vs (ManifestFileName vs.manifestFileNumber))]
          ++ persistTrace (getManifestFilePath vs (ManifestFileName vs.manifestFileNumber))
               (createSnapshot vs)
          ++ [FsOp.writeFile (getCurrentPath vs ++ "." ++ TmpSuffix),
              FsOp.rename (getCurrentPath vs ++ "." ++ TmpSuffix) (getCurrentPath vs)],
        []⟩) ∧
    (∀ w3 err vs3 w4, initJournal vs w3 = (.error err, vs3, w4) → vs3 = vs) := by
  refine ⟨initJournal_ok vs w hman hfuel, ?_⟩
  intro w3 err vs3 w4 h
  rw [initJournal, hman] at h
  dsimp only at h
  split at h
  · simp only [Prod.mk.injEq] at h
    exact h.2.1.symm
  · split at h
    · simp only [Prod.mk.injEq] at h
      exact h.2.1.symm
    · split at h
      · simp only [Prod.mk.injEq] at h
        exact h.2.1.symm
      · simp only [Prod.mk.injEq] at h
        cases h.1

/-- Witness instantiating C4: the successful concrete initialization and a
reachable failing run that leaves the version set unchanged. -/
theorem initJournal_snapshot_before_current_swap_witness :
    initJournal vsEx wEmpty =
      (.ok (),
       { vsEx with manifest :=
           (some (getManifestFilePath vsEx (ManifestFileName vsEx.manifestFileNumber))) },
       ⟨setA (removeA (setA
          (setA wEmpty.files (getManifestFilePath vsEx (ManifestFileName vsEx.manifestFileNumber))
            (.manifest (createSnapshot vsEx)))
          (getCurrentPath vsEx ++ "." ++ TmpSuffix)
          (.text (ManifestFileName vsEx.manifestFileNumber)))
          (getCurrentPath vsEx ++ "." ++ TmpSuffix))
          (getCurrentPath vsEx)
          (.text (ManifestFileName vsEx.manifestFileNumber)),
        wEmpty.trace
          ++ [FsOp.openWriter (getManifestFilePath vsEx (ManifestFileName vsEx.manifestFileNumber))]
          ++ persistTrace (getManifestFilePath vsEx (ManifestFileName vsEx.manifestFileNumber))
               (createSnapshot vsEx)
          ++ [FsOp.writeFile (getCurrentPath vsEx ++ "." ++ TmpSuffix),
              FsOp.rename (getCurrentPath vsEx ++ "." ++ TmpSuffix) (getCurrentPath vsEx)],
        []⟩) ∧
    vsEx = vsEx :=
  ⟨(initJournal_snapshot_before_current_swap vsEx wEmpty rfl rfl).1,
   (initJournal_snapshot_before_current_swap vsEx wEmpty rfl rfl).2 wFailOpen
     (.ioError "create writer error") vsEx
     ⟨[], [FsOp.openWriter "s/MANIFEST-1"], []⟩ rfl⟩

/-- Store-level application rewrites only the two counters, folding the
`NextFileNumber` values of the log over them. -/
theorem applyVersionSet_spec (e : EditLog) (vs : StoreVersionSet) :
    e.applyVersionSet vs =
      { vs with
         manifestFileNumber :=
           (nfnValues e).foldl (fun _ x => x) vs.manifestFileNumber,
         nextFileNumber :=
           (nfnValues e).foldl (fun _ x => x + 1) vs.nextFileNumber } := by
  obtain ⟨fid, edits⟩ := e
  simp only [EditLog.applyVersionSet, nfnValues]
  induction edits generalizing vs with
  | nil => simp
  | cons ed rest ih =>
    cases ed with
    | newFile l f => simpa using ih vs
    | deleteFile l num => simpa using ih vs
    | nextFileNumber n =>
      simp only [List.foldl_cons, List.filterMap_cons]
      rw [ih]
      simp [setNextFileNumberWithoutLock]

/-- A successful family-level application changes only the family-version
map. -/
theorem applyFamilyVersion_fields (vs : StoreVersionSet) (familyID : Int)
    (e : EditLog) (vs2 : StoreVersionSet)
    (h : applyFamilyVersion vs familyID e = .ok vs2) :
    vs2.manifestFileNumber = vs.manifestFileNumber ∧
    vs2.nextFileNumber = vs.nextFileNumber ∧
    vs2.storePath = vs.storePath ∧ vs2.familyIDs = vs.familyIDs ∧
    vs2.numOfLevels = vs.numOfLevels ∧ vs2.manifest = vs.manifest := by
  rw [applyFamilyVersion] at h
  cases hfv : getFamilyVersionByID vs familyID with
  | none => rw [hfv] at h; cases h
  | some fv =>
    rw [hfv] at h
    dsimp only at h
    injection h with h2
    subst h2
    simp

/-- A successful replay folds the store-level `NextFileNumber` values over
the counters and leaves the path, the id map, the level count and the writer
untouched. -/
theorem replayAll_fields (logs : List EditLog) (vs vs2 : StoreVersionSet)
    (h : replayAll vs logs = .ok vs2) :
    vs2.manifestFileNumber =
      (storeNextFileNumbers logs).foldl (fun _ x => x) vs.manifestFileNumber ∧
    vs2.nextFileNumber =
      (storeNextFileNumbers logs).foldl (fun _ x => x + 1) vs.nextFileNumber ∧
    vs2.storePath = vs.storePath ∧ vs2.familyIDs = vs.familyIDs ∧
    vs2.numOfLevels = vs.numOfLevels ∧ vs2.manifest = vs.manifest := by
  induction logs generalizing vs with
  | nil =>
    rw [replayAll] at h
    injection h with h2
    subst h2
    simp [storeNextFileNumbers]
  | cons e rest ih =>
    rw [replayAll] at h
    by_cases hfid : e.familyID = StoreFamilyID
    · rw [if_pos hfid] at h
      have h2 := ih _ h
      rw [applyVersionSet_spec] at h2
      simp only at h2
      simp only [storeNextFileNumbers, if_pos hfid, List.foldl_append]
      exact h2
    · rw [if_neg hfid] at h
      cases happ : applyFamilyVersion vs e.familyID e with
      | error err => rw [happ] at h; cases h
      | ok vs3 =>
        rw [happ] at h
        dsimp only at h
        have hf := applyFamilyVersion_fields _ _ _ _ happ
        have hr := ih _ h
        simp only [storeNextFileNumbers, if_neg hfid]
        obtain ⟨a1, a2, a3, a4, a5, a6⟩ := hf
        obtain ⟨b1, b2, b3, b4, b5, b6⟩ := hr
        exact ⟨by rw [b1, a1], by rw [b2, a2], by rw [b3, a3],
               by rw [b4, a4], by rw [b5, a5], by rw [b6, a6]⟩

/-- The record loop of `recover` computes exactly the spec-side replay. -/
theorem recoverLoop_eq_replayAll (logs : List EditLog) (vs vs2 : StoreVersionSet)
    (h : replayAll vs logs = .ok vs2) :
    recoverLoop vs logs = (.ok (), vs2) := by
  induction logs generalizing vs with
  | nil =>
    rw [replayAll] at h
    injection h with h2
    subst h2
    rfl
  | cons e rest ih =>
    rw [replayAll] at h
    simp only [recoverLoop]
    by_cases hfid : e.familyID = StoreFamilyID
    · rw [if_pos hfid] at h ⊢
      exact ih _ h
    · rw [if_neg hfid] at h ⊢
      cases happ : applyFamilyVersion vs e.familyID e with
      | error err => rw [happ] at h; cases h
      | ok vs3 =>
        rw [happ] at h
        dsimp only at h
        dsimp only
        exact ih _ h

/-- C2: when CURRENT is absent, `Recover` initializes the store, writing the
initial snapshot to a new manifest and setting CURRENT; otherwise it replays
every framed record of the named manifest in order, dispatching store-level
logs to the version set and all others to the head of the family with that
id, so the state after `Recover` equals the spec-side replay of every
persisted edit log in order (with a fresh manifest writer installed). -/
theorem recover_replays_edit_logs (vs : StoreVersionSet) (w : World)
    (hfuel : w.fuel = []) (hman : vs.manifest = none) :
    (lookupA w.files (getCurrentPath vs) = none →
      Recover vs w =
        (.ok (),
         { vs with manifest :=
             (some (getManifestFilePath vs (ManifestFileName vs.manifestFileNumber))) },
         ⟨setA (removeA (setA
            (setA w.files (getManifestFilePath vs (ManifestFileName vs.manifestFileNumber))
              (.manifest (createSnapshot vs)))
            (getCurrentPath vs ++ "." ++ TmpSuffix)
            (.text (ManifestFileName vs.manifestFileNumber)))
            (getCurrentPath vs ++ "." ++ TmpSuffix))
            (getCurrentPath vs)
            (.text (ManifestFileName vs.manifestFileNumber)),
          w.trace
            ++ [FsOp.openWriter (getManifestFilePath vs (ManifestFileName vs.manifestFileNumber))]
            ++ persistTrace (getManifestFilePath vs (ManifestFileName vs.manifestFileNumber))
                 (createSnapshot vs)
            ++ [FsOp.writeFile (getCurrentPath vs ++ "." ++ TmpSuffix),
                FsOp.rename (getCurrentPath vs ++ "." ++ TmpSuffix) (getCurrentPath vs)],
          []⟩)) ∧
    (∀ name logs vs2, lookupA w.files (getCurrentPath vs) = some (.text name) →
      lookupA w.files (getManifestFilePath vs name) = some (.manifest logs) →
      replayAll vs logs = .ok vs2 →
      (Recover vs w).1 = .ok () ∧
      (Recover vs w).2.1 =
        { vs2 with manifest :=
            (some (getManifestFilePath vs2 (ManifestFileName vs2.manifestFileNumber))) }) := by
  constructor
  · intro hnone
    rw [Recover, hnone]
    simp only [Option.isSome_none, Bool.false_eq_true, if_false]
    exact initJournal_ok vs w hman hfuel
  · intro name logs vs2 hcur hmanifest hreplay
    have hrec : recoverVS vs w = (.ok (), vs2, w) := by
      rw [recoverVS, readManifestFileName, hcur]
      dsimp only
      rw [openManifestReader, hmanifest]
      dsimp only
      rw [recoverLoop_eq_replayAll _ _ _ hreplay]
    have hman2 : vs2.manifest = none := by
      rw [(replayAll_fields _ _ _ hreplay).2.2.2.2.2, hman]
    have hall : Recover vs w = initJournal vs2 w := by
      rw [Recover, hcur]
      simp only [Option.isSome_some, if_true]
      rw [hrec]
    rw [hall, initJournal_ok vs2 w hman2 hfuel]
    exact ⟨rfl, rfl⟩

/-- Witness instantiating C2: initialization of an empty directory and a
replay of a concrete two-log manifest. -/
theorem recover_replays_edit_logs_witness :
    Recover vsEx wEmpty =
      (.ok (),
       { vsEx with manifest :=
           (some (getManifestFilePath vsEx (ManifestFileName vsEx.manifestFileNumber))) },
       ⟨setA (removeA (setA
          (setA wEmpty.files (getManifestFilePath vsEx (ManifestFileName vsEx.manifestFileNumber))
            (.manifest (createSnapshot vsEx)))
          (getCurrentPath vsEx ++ "." ++ TmpSuffix)
          (.text (ManifestFileName vsEx.manifestFileNumber)))
          (getCurrentPath vsEx ++ "." ++ TmpSuffix))
          (getCurrentPath vsEx)
          (.text (ManifestFileName vsEx.manifestFileNumber)),
        wEmpty.trace
          ++ [FsOp.openWriter (getManifestFilePath vsEx (ManifestFileName vsEx.manifestFileNumber))]
          ++ persistTrace (getManifestFilePath vsEx (ManifestFileName vsEx.manifestFileNumber))
               (createSnapshot vsEx)
          ++ [FsOp.writeFile (getCurrentPath vsEx ++ "." ++ TmpSuffix),
              FsOp.rename (getCurrentPath vsEx ++ "." ++ TmpSuffix) (getCurrentPath vsEx)],
        []⟩) ∧
    (Recover vsEx wW).1 = .ok () ∧
    (Recover vsEx wW).2.1 =
      { vsW2 with manifest :=
          (some (getManifestFilePath vsW2 (ManifestFileName vsW2.manifestFileNumber))) } :=
  ⟨(recover_replays_edit_logs vsEx wEmpty rfl rfl).1 rfl,
   ((recover_replays_edit_logs vsEx wW rfl rfl).2 "MANIFEST-1" logsW vsW2
     (by decide) (by decide) rfl).1,
   ((recover_replays_edit_logs vsEx wW rfl rfl).2 "MANIFEST-1" logsW vsW2
     (by decide) (by decide) rfl).2⟩

/-- A record loop over a journal containing a log of an unregistered family
id cannot succeed. -/
theorem recoverLoop_unknown_family (logs : List EditLog) :
    ∀ vs : StoreVersionSet,
    (∃ e, e ∈ logs ∧ e.familyID ≠ StoreFamilyID ∧
      lookupA vs.familyIDs e.familyID = none) →
    exceptIsOk (recoverLoop vs logs).1 = false := by
  induction logs with
  | nil =>
    rintro vs ⟨e, hmem, -, -⟩
    cases hmem
  | cons a rest ih =>
    rintro vs ⟨e, hmem, hfid, hunk⟩
    simp only [recoverLoop]
    by_cases ha : a.familyID = StoreFamilyID
    · rw [if_pos ha]
      apply ih
      rcases List.mem_cons.mp hmem with rfl | hmem2
      · exact absurd ha hfid
      · refine ⟨e, hmem2, hfid, ?_⟩
        rw [applyVersionSet_spec]
        exact hunk
    · rw [if_neg ha]
      cases happ : applyFamilyVersion vs a.familyID a with
      | error err => simp [exceptIsOk]
      | ok vs3 =>
        dsimp only
        apply ih
        rcases List.mem_cons.mp hmem with rfl | hmem2
        · exfalso
          rw [applyFamilyVersion, getFamilyVersionByID, hunk] at happ
          cases happ
        · refine ⟨e, hmem2, hfid, ?_⟩
          rw [(applyFamilyVersion_fields _ _ _ _ happ).2.2.2.1]
          exact hunk

/-- C10: when the replayed manifest contains an edit log whose familyID is
neither the store family id nor a registered family id, `Recover` fails
instead of skipping or auto-creating the family. -/
theorem recover_unknown_family_fails (vs : StoreVersionSet) (w : World)
    (name : String) (logs : List EditLog) (e : EditLog)
    (hcur : lookupA w.files (getCurrentPath vs) = some (.text name))
    (hmanifest : lookupA w.files (getManifestFilePath vs name) = some (.manifest logs))
    (hmem : e ∈ logs) (hfid : e.familyID ≠ StoreFamilyID)
    (hunk : lookupA vs.familyIDs e.familyID = none) :
    exceptIsOk (Recover vs w).1 = false := by
  have hloop := recoverLoop_unknown_family logs vs ⟨e, hmem, hfid, hunk⟩
  rcases hlp : recoverLoop vs logs with ⟨r, vs3⟩
  cases r with
  | ok u =>
    rw [hlp] at hloop
    simp [exceptIsOk] at hloop
  | error err =>
    have hrecv : recoverVS vs w = (.error err, vs3, w) := by
      rw [recoverVS, readManifestFileName, hcur]
      dsimp only
      rw [openManifestReader, hmanifest]
      dsimp only
      rw [hlp]
    rw [Recover, hcur]
    simp only [Option.isSome_some, if_true]
    rw [hrecv]
    simp [exceptIsOk]

/-- Witness instantiating C10 at a journal with an unregistered family id. -/
theorem recover_unknown_family_fails_witness :
    exceptIsOk (Recover vsEx wBad).1 = false :=
  recover_unknown_family_fails vsEx wBad "MANIFEST-1" logsBad
    { familyID := 42, logs := [.newFile 0 (fmEx 3)] }
    (by decide) (by decide) (by decide) (by decide) (by decide)

/-- Folding a function of the current element alone returns the image of the
last element. -/
theorem foldl_pick_last (g : Int → Int) (a : Int) (l : List Int) (n : Int)
    (h : l.getLast? = some n) :
    l.foldl (fun _ x => g x) a = g n := by
  induction l generalizing a with
  | nil => simp at h
  | cons x rest ih =>
    cases rest with
    | nil =>
      simp only [List.getLast?_singleton, Option.some.injEq] at h
      subst h
      simp
    | cons y t =>
      rw [List.getLast?_cons_cons] at h
      simp only [List.foldl_cons]
      exact ih (g x) h

/-- C9 counterexample: recovering a journal that records file number 100 and
a store-level NextFileNumber(5) edit succeeds, and the next file number
returned afterwards is 6, which is not strictly greater than the recorded
file number 100; so the unconditional claim is false. -/
theorem recovery_file_number_counterexample :
    (Recover vsEx w9).1 = .ok () ∧
    lastStoreNextFileNumber logs9 = some 5 ∧
    (100 : Int) ∈ recordedFileNumbers logs9 ∧
    (NextFileNumber (Recover vsEx w9).2.1).1 = 6 ∧
    ¬ (100 < (NextFileNumber (Recover vsEx w9).2.1).1) :=
  ⟨rfl, rfl, by decide, rfl, by decide⟩

/-- C9 as amended: replaying a store-level NextFileNumber(n) edit during
recovery stores n into manifestFileNumber and n+1 into nextFileNumber (the
last such edit winning); every later NextFileNumber() call returns n+1+i,
hence at least n+1 and strictly greater than every file number recorded in
the replayed logs that is at most n; the next manifest roll uses n as its
manifest file number. -/
theorem recovery_next_file_number_spec (vs vs2 : StoreVersionSet)
    (logs : List EditLog) (n m : Int) (k i : Nat) (w : World)
    (hreplay : replayAll vs logs = .ok vs2)
    (hlast : lastStoreNextFileNumber logs = some n)
    (hik : i < k)
    (_hm : m ∈ recordedFileNumbers logs) (hmn : m ≤ n)
    (hman2 : vs2.manifest = none) (hfuel : w.fuel = []) :
    vs2.manifestFileNumber = n ∧
    vs2.nextFileNumber = n + 1 ∧
    (nextFileNumbers vs2 k).1[i]? = some (n + 1 + (i : Int)) ∧
    m < n + 1 + (i : Int) ∧
    (initJournal vs2 w).2.1.manifest =
      some (getManifestFilePath vs2 (ManifestFileName n)) := by
  have hf := replayAll_fields logs vs vs2 hreplay
  have hlast2 : (storeNextFileNumbers logs).getLast? = some n := hlast
  have h1 : vs2.manifestFileNumber = n := by
    rw [hf.1, foldl_pick_last (fun x => x) _ _ _ hlast2]
  have h2 : vs2.nextFileNumber = n + 1 := by
    rw [hf.2.1, foldl_pick_last (fun x => x + 1) _ _ _ hlast2]
  refine ⟨h1, h2, ?_, by omega, ?_⟩
  · rw [nextFileNumbers_get vs2 k i hik, h2]
  · rw [initJournal_ok vs2 w hman2 hfuel]
    dsimp only
    rw [h1]

/-- Witness instantiating the amended C9 at a concrete journal whose recorded
file number 3 stays below the store-level next file number 5. -/
theorem recovery_next_file_number_spec_witness :
    vsW2.manifestFileNumber = 5 ∧
    vsW2.nextFileNumber = 5 + 1 ∧
    (nextFileNumbers vsW2 2).1[0]? = some (5 + 1 + ((0 : Nat) : Int)) ∧
    (3 : Int) < 5 + 1 + ((0 : Nat) : Int) ∧
    (initJournal vsW2 wEmpty).2.1.manifest =
      some (getManifestFilePath vsW2 (ManifestFileName 5)) :=
  recovery_next_file_number_spec vsEx vsW2 logsW 5 3 2 0 wEmpty rfl rfl
    (by omega) (by decide) (by decide) rfl rfl

/-- One write-path step keeps the tag limit and cannot push the tag count
above it. -/
theorem metricStore_step_fields (m : MetricStore) (op : MOp) :
    (m.step op).maxTagsLimit = m.maxTagsLimit ∧
    (m.tagCount ≤ m.maxTagsLimit → (m.step op).tagCount ≤ m.maxTagsLimit) := by
  cases op with
  | write t =>
    by_cases hc : t ∈ m.mutable.tags
    · simp [MetricStore.step, MetricStore.write, hc]
    · by_cases hl : m.maxTagsLimit ≤ m.tagCount
      · simp [MetricStore.step, MetricStore.write, hc, hl]
      · refine ⟨?_, ?_⟩
        · simp [MetricStore.step, MetricStore.write, hc, hl]
        · intro h
          simp only [MetricStore.step, MetricStore.write, if_neg hc, if_neg hl]
          simp only [MetricStore.tagCount, List.length_cons] at hl ⊢
          omega
  | freeze v =>
    refine ⟨rfl, ?_⟩
    intro h
    simp only [MetricStore.step, MetricStore.freeze, MetricStore.tagCount,
      List.length_nil, List.map_append, List.sum_append, List.map_cons,
      List.sum_cons, List.map_nil, List.sum_nil] at h ⊢
    omega

/-- The tag-count invariant is preserved by any sequence of write-path
operations. -/
theorem metricStore_run_invariant (ops : List MOp) :
    ∀ m : MetricStore, m.tagCount ≤ m.maxTagsLimit →
    (MetricStore.run m ops).tagCount ≤ (MetricStore.run m ops).maxTagsLimit := by
  induction ops with
  | nil =>
    intro m h
    simpa [MetricStore.run] using h
  | cons op rest ih =>
    intro m h
    have hs := metricStore_step_fields m op
    have h2 : (m.step op).tagCount ≤ (m.step op).maxTagsLimit := by
      rw [hs.1]
      exact hs.2 h
    simpa [MetricStore.run] using ih (m.step op) h2

/-- C8: starting from a metric store within its tag limit, after any sequence
of writes and freezes the total number of tag-sets, summed across the mutable
and immutable versioned maps, never exceeds the tag limit; a write of a fresh
tag-set at the limit returns TooManyTags, and such a failing write changes
nothing. -/
theorem write_tag_cardinality_bound (m : MetricStore) (ops : List MOp) (t : String)
    (hinv : m.tagCount ≤ m.maxTagsLimit) :
    (MetricStore.run m ops).tagCount ≤ (MetricStore.run m ops).maxTagsLimit ∧
    (t ∉ m.mutable.tags → m.maxTagsLimit ≤ m.tagCount →
      m.write t = .error .tooManyTags) ∧
    (m.write t = .error .tooManyTags → m.step (.write t) = m) := by
  refine ⟨metricStore_run_invariant ops m hinv, ?_, ?_⟩
  · intro hc hl
    simp [MetricStore.write, hc, hl]
  · intro hw
    simp [MetricStore.step, hw]

/-- Witness instantiating C8 at a store holding 2 of 2 tags: the third fresh
tag-set is rejected, the failing write changes nothing, and the count stays
at the limit. -/
theorem write_tag_cardinality_bound_witness :
    (MetricStore.run mFull [.write "c"]).tagCount ≤
      (MetricStore.run mFull [.write "c"]).maxTagsLimit ∧
    mFull.write "c" = .error .tooManyTags ∧
    mFull.step (.write "c") = mFull :=
  ⟨(write_tag_cardinality_bound mFull [.write "c"] "c" (by decide)).1,
   (write_tag_cardinality_bound mFull [] "c" (by decide)).2.1 (by decide) (by decide),
   (write_tag_cardinality_bound mFull [] "c" (by decide)).2.2
     ((write_tag_cardinality_bound mFull [] "c" (by decide)).2.1 (by decide) (by decide))⟩
